import Mathlib

/-!
# Verification of the YouTube live-stream Telegram notifier

Shallow embedding of the polling core of the repository
(`main.py`, `app/youtube_client.py`, `app/storage.py`):

* the resilient HTTP client `YouTubeClient._get` with credential rotation
  and retry/backoff (modelled as a state machine driven by a network
  oracle, delays in milliseconds, `0.5 s = 500 ms`);
* the resolver operations `resolve_channel_id` / `extract_channel_hint`
  (the channel-URL regular expression is embedded as an explicit matcher
  over character lists) and `get_live_now`;
* the polling loop `notifier_loop` of `main.py`, one sweep at a time,
  over a storage state holding `last_live`, `last_live_at`,
  `cooldown_until`, `subscriptions` and `destinations`.

ISO-8601 timestamp strings are embedded as the inductive `TS`: a
well-formed string denotes the instant it encodes (`TS.iso t`), any other
string is `TS.corrupt`; `datetime.fromisoformat` becomes `parseTS`, which
recovers the instant of a well-formed string and fails on a corrupt one.
Instants are integers.  Python truthiness of optional strings (`x or d`)
is embedded by `pyOr`, which treats the empty string as absent.
-/

/-- Python `x or default` on an optional string: `None` and `""` are falsy. -/
def pyOr (o : Option String) (d : String) : String :=
  match o with
  | some s => if s = "" then d else s
  | none => d

/-- Python `a or b` on two optional strings (`lsd.get(..) or lsd.get(..)`). -/
def pyOrOpt (a b : Option String) : Option String :=
  match a with
  | some s => if s = "" then b else some s
  | none => b

/-- One character of Python `html.escape` (default `quote=True`). -/
def escChar (c : Char) : List Char :=
  if c = '&' then "&amp;".data
  else if c = '<' then "&lt;".data
  else if c = '>' then "&gt;".data
  else if c = '"' then "&quot;".data
  else if c = '\'' then "&#x27;".data
  else [c]

/-- Python `html.escape` as used when building the notification text. -/
def htmlEscape (s : String) : String :=
  String.mk (s.data.foldr (fun c acc => escChar c ++ acc) [])

/-- `YouTubeClient.video_url`: the canonical watch URL for a video id. -/
def video_url (video_id : String) : String :=
  "https://www.youtube.com/watch?v=" ++ video_id

/-- A stored timestamp string: either a well-formed ISO-8601 encoding of an
instant (an integer), or a corrupt string that fails to parse. -/
inductive TS where
  | iso (t : Int)
  | corrupt (s : String)
deriving DecidableEq, Repr

/-- `datetime.fromisoformat` on a stored timestamp: the instant of a
well-formed string, failure (the raised `ValueError`) on a corrupt one. -/
def parseTS : TS → Option Int
  | .iso t => some t
  | .corrupt _ => none

/-- `LiveInfo` from `app/youtube_client.py`. -/
structure LiveInfo where
  channel_id : String
  channel_title : Option String
  video_id : String
  video_title : Option String
  scheduled_start_time : Option String
deriving DecidableEq, Repr

/-! ## The resilient client: `YouTubeClient._get`

One HTTP request has one of four outcomes, read off the httpx response
handling in `_get`: a 2xx response with a payload, a transient transport
failure (`ConnectError` / `ReadTimeout` / `WriteTimeout`), a 403 whose
JSON error body names a list of reasons, or any other error status (which
`raise_for_status` turns into `HTTPStatusError`).  The network is an
oracle assigning an outcome to every request, numbered in issue order. -/

inductive NetOutcome (ρ : Type) where
  | ok (r : ρ)
  | timeout
  | status403 (reasons : List String)
  | errStatus
deriving DecidableEq, Repr

/-- The fixed rejection set that triggers credential rotation. -/
def quotaReasons : List String :=
  ["quotaExceeded", "dailyLimitExceeded", "rateLimitExceeded", "keyInvalid"]

/-- `reasons & quota_reasons` is non-empty. -/
def isQuota403 (reasons : List String) : Bool :=
  reasons.any (fun r => quotaReasons.contains r)

/-- `YouTubeClient._advance_key`: the cursor moves (mod the number of
keys) only when more than one key is configured. -/
def advance_key (numKeys idx : Nat) : Nat :=
  if numKeys > 1 then (idx + 1) % numKeys else idx

/-- Exit status of the inner `for attempt in range(retries)` loop of
`_get`: either the function returns (`done`), or the quota branch breaks
out to rotate the credential (`rotate`). -/
inductive InnerOut (ρ : Type) where
  | done (r : Option ρ)
  | rotate
deriving DecidableEq, Repr

/-- Trace of one inner retry loop run: its exit status, how many requests
it issued, the delays slept (ms), the next request number, and the delay
variable on exit (Python carries `delay` across credential rotations). -/
structure InnerRes (ρ : Type) where
  out : InnerOut ρ
  attempts : Nat
  sleeps : List Nat
  nextReq : Nat
  delay : Nat
deriving Repr

/-- The inner retry loop of `_get`, with `left` attempts remaining
(`left = retries - attempt`).  On a timeout at the final attempt the call
returns `None`; on an earlier timeout it sleeps `delay` and doubles it; a
403 with a quota reason breaks out to rotate; any other 403 or error
status returns `None`; a 2xx returns the response.  `left = 0` is the
`for`/`else` branch (reachable only with `retries = 0`). -/
def innerTry {ρ : Type} (net : Nat → NetOutcome ρ) : Nat → Nat → Nat → InnerRes ρ
  | 0, req, delay => ⟨.done none, 0, [], req, delay⟩
  | left + 1, req, delay =>
    match net req with
    | .ok r => ⟨.done (some r), 1, [], req + 1, delay⟩
    | .errStatus => ⟨.done none, 1, [], req + 1, delay⟩
    | .status403 reasons =>
      if isQuota403 reasons then ⟨.rotate, 1, [], req + 1, delay⟩
      else ⟨.done none, 1, [], req + 1, delay⟩
    | .timeout =>
      if left = 0 then ⟨.done none, 1, [], req + 1, delay⟩
      else
        let rest := innerTry net left (req + 1) (delay * 2)
        ⟨rest.out, rest.attempts + 1, delay :: rest.sleeps, rest.nextReq, rest.delay⟩

/-- Observable result of a whole `_get` call: the returned response (if
any), the final credential cursor, the key index used by each request in
order, and the delays slept in order. -/
structure GetRes (ρ : Type) where
  response : Option ρ
  keyIndex : Nat
  attempts : List Nat
  sleeps : List Nat
deriving Repr, DecidableEq

/-- The outer `while keys_tried < len(self._keys)` loop of `_get`.
`fuel` bounds the iterations; every iteration that does not return
increments `keysTried`, so `fuel = numKeys` never truncates, and the
fuel-exhausted branch coincides with the loop-exit `return None`. -/
def outerTry {ρ : Type} (net : Nat → NetOutcome ρ) (numKeys retries : Nat) :
    Nat → Nat → Nat → Nat → Nat → GetRes ρ
  | 0, keyIdx, _, _, _ => ⟨none, keyIdx, [], []⟩
  | fuel + 1, keyIdx, keysTried, req, delay =>
    if keysTried < numKeys then
      let ir := innerTry net retries req delay
      match ir.out with
      | .done r => ⟨r, keyIdx, List.replicate ir.attempts keyIdx, ir.sleeps⟩
      | .rotate =>
        let keyIdx' := advance_key numKeys keyIdx
        let rest := outerTry net numKeys retries fuel keyIdx' (keysTried + 1) ir.nextReq ir.delay
        ⟨rest.response, rest.keyIndex, List.replicate ir.attempts keyIdx ++ rest.attempts,
          ir.sleeps ++ rest.sleeps⟩
    else ⟨none, keyIdx, [], []⟩

/-- `YouTubeClient._get` with `numKeys` configured credentials and the
cursor initially at `keyIdx`: `keys_tried` starts at 0, the request
counter at 0, the backoff delay at 500 ms. -/
def clientGet {ρ : Type} (net : Nat → NetOutcome ρ) (numKeys keyIdx : Nat)
    (retries : Nat := 3) : GetRes ρ :=
  outerTry net numKeys retries numKeys keyIdx 0 0 500

/-! ## The resolver: `extract_channel_hint` and `resolve_channel_id`

The channel-URL regular expression
`https?://(www\.)?youtube\.com/(channel/|@)([A-Za-z0-9_\-\.]+)` is
embedded as an explicit matcher over character lists; `search` tries the
match at every start position, leftmost first, and yields group 3. -/

/-- A character of the regex class `[A-Za-z0-9_\-\.]` (group 3). -/
def isHintChar (c : Char) : Bool :=
  c.isAlpha || c.isDigit || c = '_' || c = '-' || c = '.'

/-- A character that may occur in a canonical channel id (`UC…`):
letters, digits, underscore, hyphen. -/
def isIdChar (c : Char) : Bool :=
  c.isAlpha || c.isDigit || c = '_' || c = '-'

/-- Strip a literal from the front of a character list, or fail. -/
def dropLit : List Char → List Char → Option (List Char)
  | [], s => some s
  | _ :: _, [] => none
  | p :: ps, c :: cs => if c = p then dropLit ps cs else none

/-- Group 3 of the regex: one or more `isHintChar` characters, greedy. -/
def takeHint (s : List Char) : Option (List Char) :=
  let h := s.takeWhile isHintChar
  if h.isEmpty then none else some h

/-- Match the channel-URL regex anchored at the start of `s`, returning
group 3.  The optional pieces (`s?`, `(www\.)?`) are deterministic here
because their first characters are disjoint from what must follow. -/
def matchAt (s : List Char) : Option (List Char) := do
  let s1 ← dropLit "http".data s
  let s2 := (dropLit "s".data s1).getD s1
  let s3 ← dropLit "://".data s2
  let s4 := (dropLit "www.".data s3).getD s3
  let s5 ← dropLit "youtube.com/".data s4
  match dropLit "channel/".data s5 with
  | some s6 => takeHint s6
  | none =>
    match dropLit "@".data s5 with
    | some s6 => takeHint s6
    | none => none

/-- `re.search`: try the anchored match at every position, leftmost wins. -/
def searchHint : List Char → Option (List Char)
  | [] => none
  | l@(_ :: rest) =>
    match matchAt l with
    | some h => some h
    | none => searchHint rest

/-- Python `str.strip` whitespace. -/
def isPySpace (c : Char) : Bool :=
  c = ' ' || c = '\t' || c = '\n' || c = '\r' || c = '\x0b' || c = '\x0c'

/-- Python `str.strip()`. -/
def pyStrip (s : List Char) : List Char :=
  ((s.dropWhile isPySpace).reverse.dropWhile isPySpace).reverse

/-- `YouTubeClient.extract_channel_hint`: group 3 of the first regex
match in the stripped text, if any. -/
def extract_channel_hint (text : List Char) : Option (List Char) :=
  searchHint (pyStrip text)

/-- Network oracle for `resolve_channel_id`: the single channel-type
search call, `none` when `_get` fails, otherwise the per-item
`snippet.channelId` list of the response. -/
structure ResolveNet where
  searchItems : Option (List String)

/-- `YouTubeClient.resolve_channel_id`.  Returns the resolved id and the
number of network calls issued (0 on the canonical-id fast path).  The
regex group is non-empty, so Python's `hint or fallback` falls through
exactly when `extract_channel_hint` returns `None`. -/
def resolve_channel_id (net : ResolveNet) (input : List Char) : Option (List Char) × Nat :=
  let hint := match extract_channel_hint input with
    | some h => h
    | none => pyStrip input
  if (dropLit "UC".data hint).isSome = true ∧ 20 ≤ hint.length then
    (some hint, 0)
  else
    match net.searchItems with
    | none => (none, 1)
    | some [] => (none, 1)
    | some (cid :: _) => (some cid.data, 1)

/-! ## The resolver: `get_live_now` -/

/-- One item of the `videos` lookup response: `snippet.title` and the
two `liveStreamingDetails` timestamps. -/
structure VideoItem where
  title : Option String
  scheduledStartTime : Option String
  actualStartTime : Option String
deriving DecidableEq, Repr

/-- Network oracle for one `get_live_now` cycle: the live-event search
(`id.videoId` per item), the video-details lookup, and the channel-title
lookup issued by `get_channel_title`.  `none` means the underlying
`_get` returned no response. -/
structure LiveNowNet where
  searchVideoIds : Option (List String)
  videoItems : Option (List VideoItem)
  channelTitles : Option (List (Option String))
deriving DecidableEq, Repr

/-- `YouTubeClient.get_channel_title` on its response items. -/
def get_channel_title (items : Option (List (Option String))) : Option String :=
  match items with
  | none => none
  | some [] => none
  | some (t :: _) => t

/-- `YouTubeClient.get_live_now`.  If the live search fails or returns
no item the result is `none`; otherwise a `LiveInfo` is always
assembled, with `none` fields when the follow-up lookups fail. -/
def get_live_now (net : LiveNowNet) (channel_id : String) : Option LiveInfo :=
  match net.searchVideoIds with
  | none => none
  | some [] => none
  | some (video_id :: _) =>
    let vitems := match net.videoItems with
      | some l => l
      | none => []
    let ts : Option String × Option String := match vitems with
      | [] => (none, none)
      | v :: _ => (v.title, pyOrOpt v.scheduledStartTime v.actualStartTime)
    some ⟨channel_id, get_channel_title net.channelTitles, video_id, ts.1, ts.2⟩

/-! ## The polling loop: `notifier_loop` of `main.py`

Persisted storage state (`app/storage.py`), an event trace per sweep,
and the per-channel body of the loop.  `get_live_now` is an oracle at
this layer: it may also raise (any exception escaping `_get`'s handlers,
e.g. a malformed JSON body), which the loop catches only at sweep level.
One instant `now` stands for the `datetime.now(timezone.utc)` calls of a
sweep. -/

/-- Observable events of a sweep, tagged with the channel being
processed: the API call spent on `get_live_now`, the three storage
writes, and one send attempt per recipient. -/
inductive Event where
  | apiCall (c : String)
  | setLastLive (c v : String)
  | setLastLiveAt (c : String) (t : Int)
  | setCooldown (c : String) (t : Int)
  | send (c : String) (chat : Int) (text : String) (ok : Bool)
deriving DecidableEq, Repr

/-- The channel an event belongs to. -/
def Event.chan : Event → String
  | .apiCall c => c
  | .setLastLive c _ => c
  | .setLastLiveAt c _ => c
  | .setCooldown c _ => c
  | .send c _ _ _ => c

/-- Is the event a delivery attempt? -/
def Event.isSend : Event → Bool
  | .send _ _ _ _ => true
  | _ => false

/-- Is the event a persisted-state write? -/
def Event.isWrite : Event → Bool
  | .setLastLive _ _ => true
  | .setLastLiveAt _ _ => true
  | .setCooldown _ _ => true
  | _ => false

/-- The storage state consumed by the loop (`app/storage.py`):
`last_live`, `last_live_at`, `cooldown_until` keyed by channel id,
the `subscriptions` map (chat id to channel list) and the
`destinations` map (channel id to chat ids). -/
structure St where
  last_live : String → Option String
  last_live_at : String → Option TS
  cooldown_until : String → Option TS
  subscriptions : List (Int × List String)
  destinations : String → List Int

/-- Point update of a per-channel map. -/
def upd {α : Type} (f : String → α) (c : String) (v : α) : String → α :=
  fun x => if x = c then v else f x

/-- `Storage.all_subscribers_for`: the chat ids subscribed to `c`. -/
def all_subscribers_for (subs : List (Int × List String)) (c : String) : List Int :=
  (subs.filter (fun p => p.2.contains c)).map (fun p => p.1)

/-- `set(all_subscribers_for(c)) | set(list_destinations(c))`: the
recipient set, as a duplicate-free list. -/
def sweepTargets (st : St) (c : String) : List Int :=
  (all_subscribers_for st.subscriptions c ++ st.destinations c).dedup

/-- The notification text of `main.py` lines 48-52. -/
def notifText (c : String) (live : LiveInfo) : String :=
  htmlEscape (pyOr live.channel_title c) ++ " в эфире: " ++
    htmlEscape (pyOr live.video_title "Прямая трансляция") ++ "\n" ++
    video_url live.video_id

/-- The cooldown gate of `main.py` lines 26-32: skip the channel when
`cooldown_until` is present, parses, and is strictly in the future; a
parse failure falls through (`except: pass`). -/
def gateSkip (st : St) (now : Int) (c : String) : Bool :=
  match st.cooldown_until c with
  | some ts =>
    match parseTS ts with
    | some t => decide (now < t)
    | none => false
  | none => false

/-- Result of processing one channel: whether an exception escaped (to
the sweep-level handler), the storage state after, and the event trace. -/
structure StepRes where
  raised : Bool
  state : St
  trace : List Event

/-- The per-channel body of `notifier_loop` (`main.py` lines 24-59).
`D` is `cooldown_seconds`.  A raising `get_live_now` leaves the state
untouched (all writes come after it); send failures are swallowed per
chat and recorded only in the event's `ok` flag. -/
def processChannel (D now : Int) (liveRes : Except Unit (Option LiveInfo))
    (sendOk : Int → Bool) (st : St) (c : String) : StepRes :=
  if gateSkip st now c then ⟨false, st, []⟩
  else
    match liveRes with
    | .error _ => ⟨true, st, [.apiCall c]⟩
    | .ok none => ⟨false, st, [.apiCall c]⟩
    | .ok (some live) =>
      if st.last_live c = some live.video_id then ⟨false, st, [.apiCall c]⟩
      else
        let st1 : St := { st with
          last_live := upd st.last_live c (some live.video_id),
          last_live_at := upd st.last_live_at c (some (TS.iso now)) }
        let st2 : St := if 0 < D then
            { st1 with cooldown_until := upd st1.cooldown_until c (some (TS.iso (now + D))) }
          else st1
        ⟨false, st2,
          [Event.apiCall c, Event.setLastLive c live.video_id, Event.setLastLiveAt c now] ++
            (if 0 < D then [Event.setCooldown c (now + D)] else []) ++
            (sweepTargets st c).map (fun chat => Event.send c chat (notifText c live) (sendOk chat))⟩

/-- One sweep of `notifier_loop` over the tracked channels, in iteration
order.  The `try`/`except` wraps the whole `for` loop: the first raised
per-channel failure ends the sweep, leaving later channels unprocessed. -/
def runSweep (D now : Int) (oracle : String → Except Unit (Option LiveInfo))
    (sendOk : Int → Bool) (st : St) : List String → St × List Event
  | [] => (st, [])
  | c :: rest =>
    let r := processChannel D now (oracle c) sendOk st c
    if r.raised then (r.state, r.trace)
    else
      let res := runSweep D now oracle sendOk r.state rest
      (res.1, r.trace ++ res.2)

/-- `n` iterations of `notifier_loop`: sweep `i` runs at instant
`times i` against oracles `oracles i` / `sendOks i`, each sweep starting
from the state the previous one left.  Returns the final state and the
per-sweep traces. -/
def runLoop (D : Int) (times : Nat → Int) (oracles : Nat → String → Except Unit (Option LiveInfo))
    (sendOks : Nat → Int → Bool) (chs : List String) (st : St) : Nat → St × List (List Event)
  | 0 => (st, [])
  | n + 1 =>
    let s1 := runSweep D (times 0) (oracles 0) (sendOks 0) st chs
    let rest := runLoop D (fun i => times (i + 1)) (fun i => oracles (i + 1))
      (fun i => sendOks (i + 1)) chs s1.1 n
    (rest.1, s1.2 :: rest.2)

/-- Does the trace attempt any delivery for channel `c`? -/
def sentFor (c : String) (tr : List Event) : Bool :=
  tr.any (fun e => e.isSend && e.chan == c)

/-- Does the trace spend an API call on channel `c`? -/
def calledApi (c : String) (tr : List Event) : Bool :=
  tr.any (fun e => match e with | .apiCall c' => c' == c | _ => false)

/-- A delivery event with its outcome flag erased (send attempts compare
equal whether or not the transport succeeded). -/
def Event.shape : Event → Event
  | .send c chat text _ => .send c chat text true
  | e => e

/-- The key indices visited by `m` successive credential rotations
starting at `k`. -/
def advList (numKeys k : Nat) : Nat → List Nat
  | 0 => []
  | m + 1 => k :: advList numKeys (advance_key numKeys k) m

/-! ## Concrete fixtures used to evaluate the model -/

/-- Fixture: a live broadcast with id `v1` on channel `B`. -/
def liveB : LiveInfo := ⟨"B", some "Btitle", "v1", some "t", none⟩

/-- Fixture: fresh storage where chat 1 subscribes to channel `B`. -/
def stAB : St :=
  { last_live := fun _ => none, last_live_at := fun _ => none,
    cooldown_until := fun _ => none, subscriptions := [(1, ["B"])],
    destinations := fun _ => [] }

/-- Fixture sweep oracle: the resolver raises on channel `A`, reports
`liveB` on every other channel. -/
def oracleAB : String → Except Unit (Option LiveInfo) :=
  fun ch => if ch = "A" then Except.error () else Except.ok (some liveB)

/-- Fixture: storage that has already notified `v1` for channel `B`. -/
def stC : St :=
  { last_live := fun x => if x = "B" then some "v1" else none,
    last_live_at := fun _ => none, cooldown_until := fun _ => none,
    subscriptions := [(1, ["B"])], destinations := fun _ => [] }

/-- Fixture: storage with a live cooldown on channel `B` until instant 100. -/
def stCD : St :=
  { last_live := fun _ => none, last_live_at := fun _ => none,
    cooldown_until := fun x => if x = "B" then some (TS.iso 100) else none,
    subscriptions := [(1, ["B"])], destinations := fun _ => [] }

/-- Fixture: storage with overlapping subscribers and destinations for `B`. -/
def stSub : St :=
  { last_live := fun _ => none, last_live_at := fun _ => none,
    cooldown_until := fun _ => none,
    subscriptions := [(1, ["B"]), (2, ["X"]), (3, ["B"])],
    destinations := fun x => if x = "B" then [3, 4] else [] }

/-- Fixture: storage with a corrupt cooldown string on channel `B`. -/
def stCor : St :=
  { last_live := fun _ => none, last_live_at := fun _ => none,
    cooldown_until := fun x => if x = "B" then some (TS.corrupt "garbage") else none,
    subscriptions := [(1, ["B"])], destinations := fun _ => [] }

/-! ## Client lemmas -/

/-- Shifting the sleeps of a backoff run that starts one doubling later. -/
theorem geom_sleeps (delay m : Nat) :
    delay :: (List.range m).map (fun i => delay * 2 * 2 ^ i) =
      (List.range (m + 1)).map (fun i => delay * 2 ^ i) := by
  rw [List.range_succ_eq_map, List.map_cons, List.map_map]
  congr 1
  · simp
  · apply List.map_congr_left
    intro i _
    simp only [Function.comp_apply, pow_succ]
    ring

/-- Under persistent timeouts the inner retry loop performs exactly its
remaining attempts, sleeping a doubling delay between consecutive ones,
and returns no response. -/
theorem innerTry_timeout {ρ : Type} (net : Nat → NetOutcome ρ) :
    ∀ (left req delay : Nat), (∀ i, req ≤ i → net i = .timeout) → 1 ≤ left →
      innerTry net left req delay =
        ⟨.done none, left, (List.range (left - 1)).map (fun i => delay * 2 ^ i),
          req + left, delay * 2 ^ (left - 1)⟩ := by
  intro left
  induction left with
  | zero => intro req delay _ h1; omega
  | succ l ih =>
    intro req delay h _
    cases l with
    | zero => simp [innerTry, h req le_rfl]
    | succ l' =>
      have hrec := ih (req + 1) (delay * 2) (fun i hi => h i (by omega)) (by omega)
      have hsl : delay * 2 * 2 ^ l' = delay * 2 ^ (l' + 1) := by
        rw [pow_succ]; ring
      have hunf : innerTry net (l' + 1 + 1) req delay =
          ⟨(innerTry net (l' + 1) (req + 1) (delay * 2)).out,
            (innerTry net (l' + 1) (req + 1) (delay * 2)).attempts + 1,
            delay :: (innerTry net (l' + 1) (req + 1) (delay * 2)).sleeps,
            (innerTry net (l' + 1) (req + 1) (delay * 2)).nextReq,
            (innerTry net (l' + 1) (req + 1) (delay * 2)).delay⟩ := by
        conv_lhs => rw [innerTry]
        simp [h req le_rfl]
      rw [hunf, hrec]
      simp [hsl, geom_sleeps delay l']
      omega

/-- Delays `d·2^i` are strictly increasing for positive `d`. -/
theorem chain_geom (d m : Nat) (hd : 0 < d) :
    List.Chain' (fun a b => a < b) ((List.range m).map (fun i => d * 2 ^ i)) := by
  rw [List.chain'_map]
  refine List.Pairwise.chain' ?_
  refine (List.pairwise_lt_range m).imp ?_
  intro a b hab
  exact mul_lt_mul_of_pos_left (Nat.pow_lt_pow_right one_lt_two hab) hd

/-- Under persistent timeouts `_get` spends exactly `retries` attempts on
the current credential, never rotates, and returns no response. -/
theorem clientGet_timeout {ρ : Type} (net : Nat → NetOutcome ρ)
    (h : ∀ i, net i = .timeout) (numKeys keyIdx retries : Nat)
    (hN : 1 ≤ numKeys) (hr : 1 ≤ retries) :
    clientGet net numKeys keyIdx retries =
      ⟨none, keyIdx, List.replicate retries keyIdx,
        (List.range (retries - 1)).map (fun i => 500 * 2 ^ i)⟩ := by
  obtain ⟨f, rfl⟩ : ∃ f, numKeys = f + 1 := ⟨numKeys - 1, by omega⟩
  have hi := innerTry_timeout net retries 0 500 (fun i _ => h i) hr
  unfold clientGet
  simp [outerTry, hi]

/-- All-quota responses: every outer iteration issues exactly one request
and rotates, visiting the keys of `advList`, and the call fails. -/
theorem outerTry_quota {ρ : Type} (net : Nat → NetOutcome ρ) (numKeys retries : Nat)
    (hq : ∀ i, ∃ rs, net i = NetOutcome.status403 rs ∧ isQuota403 rs = true)
    (hr : 1 ≤ retries) :
    ∀ (fuel keyIdx keysTried req delay : Nat), keysTried + fuel = numKeys →
      (outerTry net numKeys retries fuel keyIdx keysTried req delay).response = none ∧
      (outerTry net numKeys retries fuel keyIdx keysTried req delay).attempts =
        advList numKeys keyIdx fuel ∧
      (outerTry net numKeys retries fuel keyIdx keysTried req delay).sleeps = [] := by
  intro fuel
  induction fuel with
  | zero =>
    intro keyIdx t req delay ht
    simp [outerTry, advList]
  | succ f ih =>
    intro keyIdx t req delay ht
    have hlt : t < numKeys := by omega
    obtain ⟨rs, hrs, hqr⟩ := hq req
    obtain ⟨r', hr'⟩ : ∃ r', retries = r' + 1 := ⟨retries - 1, by omega⟩
    have hrec := ih (advance_key numKeys keyIdx) (t + 1) (req + 1) delay (by omega)
    rw [hr'] at hrec ⊢
    simp [outerTry, hlt, innerTry, hrs, hqr, advList, hrec.1, hrec.2.1, hrec.2.2]

/-- Starting at key `k` with `numKeys - k` rotations to go, the visited
keys are consecutive. -/
theorem advList_range (numKeys : Nat) :
    ∀ (m k : Nat), k + m = numKeys → advList numKeys k m = List.range' k m := by
  intro m
  induction m with
  | zero => intro k hk; rfl
  | succ m' ih =>
    intro k hk
    cases m' with
    | zero => simp [advList, List.range']
    | succ m'' =>
      have hadv : advance_key numKeys k = k + 1 := by
        unfold advance_key
        have h1 : k + 1 < numKeys := by omega
        have h2 : numKeys > 1 := by omega
        simp [h2, Nat.mod_eq_of_lt h1]
      rw [advList, hadv, ih (k + 1) (by omega)]
      simp [List.range']

/-- A quota rejection on the current key followed by a success: one
rotation, the rotated-to key answers, the cursor stays on it. -/
theorem clientGet_single_rotate {ρ : Type} (net : Nat → NetOutcome ρ)
    (N k retries : Nat) (r : ρ) (rs : List String)
    (h0 : net 0 = .status403 rs) (hq : isQuota403 rs = true) (h1 : net 1 = .ok r)
    (hN : 2 ≤ N) (hr : 1 ≤ retries) :
    clientGet net N k retries = ⟨some r, (k + 1) % N, [k, (k + 1) % N], []⟩ := by
  obtain ⟨m, rfl⟩ : ∃ m, N = m + 2 := ⟨N - 2, by omega⟩
  obtain ⟨r', rfl⟩ : ∃ r', retries = r' + 1 := ⟨retries - 1, by omega⟩
  have g1 : (1 : Nat) < m + 2 := by omega
  unfold clientGet
  show outerTry net (m + 2) (r' + 1) (m + 1 + 1) k 0 0 500 = _
  simp [outerTry, innerTry, h0, h1, hq, advance_key, g1, Nat.zero_lt_succ]

/-- A quota rejection then persistent timeouts: the next credential gets
the full retry ceiling (the rejection does not count against it). -/
theorem clientGet_rotate_fresh {ρ : Type} (net : Nat → NetOutcome ρ)
    (N k retries : Nat) (rs : List String)
    (h0 : net 0 = .status403 rs) (hq : isQuota403 rs = true)
    (ht : ∀ i, 1 ≤ i → net i = .timeout)
    (hN : 2 ≤ N) (hr : 1 ≤ retries) :
    clientGet net N k retries =
      ⟨none, (k + 1) % N, k :: List.replicate retries ((k + 1) % N),
        (List.range (retries - 1)).map (fun i => 500 * 2 ^ i)⟩ := by
  obtain ⟨m, rfl⟩ : ∃ m, N = m + 2 := ⟨N - 2, by omega⟩
  have g1 : (1 : Nat) < m + 2 := by omega
  have hi := innerTry_timeout net retries 1 500 (fun i hi => ht i hi) hr
  obtain ⟨r', rfl⟩ : ∃ r', retries = r' + 1 := ⟨retries - 1, by omega⟩
  have hinner0 : innerTry net (r' + 1) 0 500 = ⟨.rotate, 1, [], 1, 500⟩ := by
    simp [innerTry, h0, hq]
  unfold clientGet
  show outerTry net (m + 2) (r' + 1) (m + 1 + 1) k 0 0 500 = _
  simp [outerTry, hinner0, hi, advance_key, g1, Nat.zero_lt_succ]

/-- C3: rotation correctness of `YouTubeClient._get`.  (i) With a
quota/auth rejection on every request, a call starting at credential 0
tries all `N` credentials exactly once, in order, and fails.  (ii) With a
rejection on the current credential `k` only and a success next, the call
returns that response and the cursor ends on credential `(k+1) % N`.
(iii) A rejection does not count as a retry against the backoff ceiling
of the next credential: after one rotation the next credential still
receives the full `retries` attempts before the call fails. -/
theorem C3_rotation_correctness :
    (∀ (ρ : Type) (net : Nat → NetOutcome ρ) (N retries : Nat),
      (∀ i, ∃ rs, net i = NetOutcome.status403 rs ∧ isQuota403 rs = true) →
      1 ≤ retries →
      (clientGet net N 0 retries).response = none ∧
      (clientGet net N 0 retries).attempts = List.range N) ∧
    (∀ (ρ : Type) (net : Nat → NetOutcome ρ) (N k retries : Nat) (r : ρ) (rs : List String),
      net 0 = .status403 rs → isQuota403 rs = true → net 1 = .ok r →
      2 ≤ N → 1 ≤ retries →
      clientGet net N k retries = ⟨some r, (k + 1) % N, [k, (k + 1) % N], []⟩) ∧
    (∀ (ρ : Type) (net : Nat → NetOutcome ρ) (N k retries : Nat) (rs : List String),
      net 0 = .status403 rs → isQuota403 rs = true →
      (∀ i, 1 ≤ i → net i = .timeout) → 2 ≤ N → 1 ≤ retries →
      clientGet net N k retries =
        ⟨none, (k + 1) % N, k :: List.replicate retries ((k + 1) % N),
          (List.range (retries - 1)).map (fun i => 500 * 2 ^ i)⟩) := by
  refine ⟨?_, ?_, ?_⟩
  · intro ρ net N retries hq hr
    have h := outerTry_quota net N retries hq hr N 0 0 0 500 (by omega)
    have hattempts : advList N 0 N = List.range N := by
      rw [advList_range N N 0 (by omega)]
      exact (List.range_eq_range' N).symm
    refine ⟨h.1, ?_⟩
    show (outerTry net N retries N 0 0 0 500).attempts = List.range N
    rw [h.2.1, hattempts]
  · intro ρ net N k retries r rs h0 hq h1 hN hr
    exact clientGet_single_rotate net N k retries r rs h0 hq h1 hN hr
  · intro ρ net N k retries rs h0 hq ht hN hr
    exact clientGet_rotate_fresh net N k retries rs h0 hq ht hN hr

theorem C3_rotation_correctness_witness :
    ((clientGet (fun _ : Nat => NetOutcome.status403 (ρ := Nat) ["quotaExceeded"]) 3 0 3).response = none ∧
      (clientGet (fun _ : Nat => NetOutcome.status403 (ρ := Nat) ["quotaExceeded"]) 3 0 3).attempts = List.range 3) ∧
    clientGet (fun i => match i with
      | 0 => NetOutcome.status403 (ρ := Nat) ["rateLimitExceeded"]
      | _ + 1 => NetOutcome.ok 42) 2 0 3 = ⟨some 42, (0 + 1) % 2, [0, (0 + 1) % 2], []⟩ ∧
    clientGet (fun i => match i with
      | 0 => NetOutcome.status403 (ρ := Nat) ["dailyLimitExceeded"]
      | _ + 1 => NetOutcome.timeout) 2 1 3 =
      ⟨none, (1 + 1) % 2, 1 :: List.replicate 3 ((1 + 1) % 2),
        (List.range (3 - 1)).map (fun i => 500 * 2 ^ i)⟩ :=
  ⟨C3_rotation_correctness.1 Nat _ 3 3
      (fun _ => ⟨["quotaExceeded"], rfl, by decide⟩) (by decide),
    C3_rotation_correctness.2.1 Nat _ 2 0 3 42 ["rateLimitExceeded"]
      rfl (by decide) rfl (by decide) (by decide),
    C3_rotation_correctness.2.2 Nat _ 2 1 3 ["dailyLimitExceeded"]
      rfl (by decide)
      (by intro i hi; cases i with | zero => omega | succ j => rfl)
      (by decide) (by decide)⟩

/-- C7: retry ceiling of `YouTubeClient._get`.  Under persistent
connect/read/write timeouts the call performs exactly `retries` attempts
(default 3) on the current credential, the delays slept between
consecutive attempts strictly increase (500 ms doubling each time, so
`[500, 1000]` for the default), and the call returns no response to the
caller — the timeout exception is consumed, not propagated (the embedded
`clientGet` is a total function into `GetRes`). -/
theorem C7_retry_ceiling {ρ : Type} (net : Nat → NetOutcome ρ)
    (numKeys keyIdx retries : Nat)
    (h : ∀ i, net i = .timeout) (hN : 1 ≤ numKeys) (hr : 1 ≤ retries) :
    (clientGet net numKeys keyIdx retries).response = none ∧
    (clientGet net numKeys keyIdx retries).attempts = List.replicate retries keyIdx ∧
    (clientGet net numKeys keyIdx retries).sleeps =
      (List.range (retries - 1)).map (fun i => 500 * 2 ^ i) ∧
    List.Chain' (fun a b => a < b) (clientGet net numKeys keyIdx retries).sleeps ∧
    (retries = 3 → (clientGet net numKeys keyIdx retries).sleeps = [500, 1000]) := by
  have hc := clientGet_timeout net h numKeys keyIdx retries hN hr
  rw [hc]
  refine ⟨rfl, rfl, rfl, chain_geom 500 (retries - 1) (by norm_num), ?_⟩
  rintro rfl
  rfl

theorem C7_retry_ceiling_witness :
    (clientGet (fun _ : Nat => NetOutcome.timeout (ρ := Nat)) 1 0 3).response = none ∧
    (clientGet (fun _ : Nat => NetOutcome.timeout (ρ := Nat)) 1 0 3).attempts = List.replicate 3 0 ∧
    (clientGet (fun _ : Nat => NetOutcome.timeout (ρ := Nat)) 1 0 3).sleeps =
      (List.range (3 - 1)).map (fun i => 500 * 2 ^ i) ∧
    List.Chain' (fun a b => a < b) (clientGet (fun _ : Nat => NetOutcome.timeout (ρ := Nat)) 1 0 3).sleeps ∧
    (3 = 3 → (clientGet (fun _ : Nat => NetOutcome.timeout (ρ := Nat)) 1 0 3).sleeps = [500, 1000]) :=
  C7_retry_ceiling (fun _ => NetOutcome.timeout) 1 0 3 (fun _ => rfl) (by decide) (by decide)

/-! ## Resolver lemmas -/

/-- A successful literal strip decomposes the input. -/
theorem dropLit_eq (p : List Char) :
    ∀ (s r : List Char), dropLit p s = some r → s = p ++ r := by
  induction p with
  | nil =>
    intro s r h
    simp [dropLit] at h
    simp [h]
  | cons x xs ih =>
    intro s r h
    cases s with
    | nil => simp [dropLit] at h
    | cons c cs =>
      by_cases hx : c = x
      · subst hx
        simp [dropLit] at h
        rw [ih cs r h]
        simp
      · simp [dropLit, hx] at h

/-- Any position where the channel-URL regex matches contains a colon
(from the `://` of the scheme). -/
theorem matchAt_colon {s g : List Char} (hm : matchAt s = some g) : ':' ∈ s := by
  unfold matchAt at hm
  cases h1 : dropLit "http".data s with
  | none => simp [h1] at hm
  | some s1 =>
    simp only [h1, Option.bind_eq_bind, Option.some_bind] at hm
    cases h3 : dropLit "://".data ((dropLit "s".data s1).getD s1) with
    | none => simp [h3] at hm
    | some s3 =>
      have hcolon2 : ':' ∈ (dropLit "s".data s1).getD s1 := by
        rw [dropLit_eq _ _ _ h3]
        have : ':' ∈ "://".data := by decide
        exact List.mem_append_left _ this
      have hcolon1 : ':' ∈ s1 := by
        cases h2 : dropLit "s".data s1 with
        | none => rw [h2] at hcolon2; simpa using hcolon2
        | some s2 =>
          rw [h2] at hcolon2
          rw [dropLit_eq _ _ _ h2]
          simp only [Option.getD_some] at hcolon2
          exact List.mem_append_right _ hcolon2
      rw [dropLit_eq _ _ _ h1]
      exact List.mem_append_right _ hcolon1

/-- The regex cannot match anywhere in a colon-free string. -/
theorem searchHint_eq_none : ∀ {s : List Char}, ':' ∉ s → searchHint s = none := by
  intro s
  induction s with
  | nil => intro _; rfl
  | cons c cs ih =>
    intro h
    rw [searchHint]
    cases hm : matchAt (c :: cs) with
    | some g => exact absurd (matchAt_colon hm) h
    | none => simpa using ih (fun hc => h (List.mem_cons_of_mem _ hc))

/-- `dropWhile` is the identity when no element satisfies the predicate. -/
theorem dropWhile_all_neg {p : Char → Bool} {l : List Char}
    (h : ∀ x ∈ l, p x = false) : l.dropWhile p = l := by
  cases l with
  | nil => rfl
  | cons c cs =>
    rw [List.dropWhile_cons, h c (by simp)]
    simp

/-- `str.strip()` leaves a whitespace-free string unchanged. -/
theorem pyStrip_id {s : List Char} (h : ∀ x ∈ s, isPySpace x = false) :
    pyStrip s = s := by
  unfold pyStrip
  rw [dropWhile_all_neg h, dropWhile_all_neg (fun x hx => h x (by simpa using hx))]
  simp

/-- Channel-id characters are not Python whitespace. -/
theorem idChar_not_space {c : Char} (h : isIdChar c = true) : isPySpace c = false := by
  by_contra hx
  rw [Bool.not_eq_false] at hx
  unfold isPySpace at hx
  simp only [Bool.or_eq_true, decide_eq_true_eq] at hx
  rcases hx with ((((hc | hc) | hc) | hc) | hc) | hc <;> subst hc <;>
    exact absurd h (by decide)

/-- C8: canonical-id round trip of `resolve_channel_id`.  An input that
is already a canonical channel id — characters from the id alphabet, the
`UC` prefix, length at least 20 — is returned unchanged by the fast path,
with zero network calls issued, for every network behaviour. -/
theorem C8_canonical_roundtrip (s : List Char) (net : ResolveNet)
    (hchars : ∀ c ∈ s, isIdChar c = true)
    (hUC : (dropLit "UC".data s).isSome = true)
    (hlen : 20 ≤ s.length) :
    resolve_channel_id net s = (some s, 0) := by
  have hstrip : pyStrip s = s :=
    pyStrip_id (fun x hx => idChar_not_space (hchars x hx))
  have hnocolon : ':' ∉ s := by
    intro hc
    exact absurd (hchars ':' hc) (by decide)
  have hext : extract_channel_hint s = none := by
    unfold extract_channel_hint
    rw [hstrip]
    exact searchHint_eq_none hnocolon
  unfold resolve_channel_id
  rw [hext]
  simp only [hstrip]
  simp [hUC, hlen]

theorem C8_canonical_roundtrip_witness :
    (∀ c ∈ "UCabcdefghijklmnopqr".data, isIdChar c = true) ∧
    (dropLit "UC".data "UCabcdefghijklmnopqr".data).isSome = true ∧
    20 ≤ "UCabcdefghijklmnopqr".data.length ∧
    resolve_channel_id ⟨none⟩ "UCabcdefghijklmnopqr".data =
      (some "UCabcdefghijklmnopqr".data, 0) :=
  ⟨by decide, by decide, by decide,
    C8_canonical_roundtrip "UCabcdefghijklmnopqr".data ⟨none⟩
      (by decide) (by decide) (by decide)⟩

/-! ## C6: `get_live_now` on partial failures -/

/-- A cycle whose live search finds `v1` but whose video-details and
channel-title lookups both fail. -/
def liveFailNet : LiveNowNet := ⟨some ["v1"], none, none⟩

/-- C6 counterexample: the claim says a failure of the detail or
channel-title lookup makes the whole `get_live_now` result `None`; in
the code, once the live search has found an item the result is a
partially filled descriptor, never `None`. -/
theorem C6_counterexample :
    get_live_now liveFailNet "UCchan" = some ⟨"UCchan", none, "v1", none, none⟩ ∧
    ¬ get_live_now liveFailNet "UCchan" = none := by
  constructor <;> decide

/-- C6 (amended): if the initial live search fails or returns no item,
`get_live_now` returns `None`; once the search finds an item, the result
is always a descriptor carrying that video id — when the detail or
channel-title lookups fail, their fields are `None` (a partially filled
descriptor), and no error is raised. -/
theorem C6_unknown_cycle (net : LiveNowNet) (cid vid : String) (rest : List String) :
    (net.searchVideoIds = none → get_live_now net cid = none) ∧
    (net.searchVideoIds = some [] → get_live_now net cid = none) ∧
    (net.searchVideoIds = some (vid :: rest) → net.videoItems = none →
      get_live_now net cid =
        some ⟨cid, get_channel_title net.channelTitles, vid, none, none⟩) ∧
    (net.searchVideoIds = some (vid :: rest) →
      ∃ li, get_live_now net cid = some li ∧ li.video_id = vid) := by
  refine ⟨?_, ?_, ?_, ?_⟩
  · intro h; simp [get_live_now, h]
  · intro h; simp [get_live_now, h]
  · intro h hv; simp [get_live_now, h, hv]
  · intro h
    cases hv : net.videoItems with
    | none =>
      refine ⟨⟨cid, get_channel_title net.channelTitles, vid, none, none⟩, ?_, rfl⟩
      simp [get_live_now, h, hv]
    | some l =>
      cases l with
      | nil =>
        refine ⟨⟨cid, get_channel_title net.channelTitles, vid, none, none⟩, ?_, rfl⟩
        simp [get_live_now, h, hv]
      | cons v vs =>
        refine ⟨⟨cid, get_channel_title net.channelTitles, vid, v.title,
          pyOrOpt v.scheduledStartTime v.actualStartTime⟩, ?_, rfl⟩
        simp [get_live_now, h, hv]

theorem C6_unknown_cycle_witness :
    get_live_now ⟨none, none, none⟩ "c" = none ∧
    get_live_now ⟨some [], some [], some []⟩ "c" = none ∧
    get_live_now liveFailNet "c2" =
      some ⟨"c2", get_channel_title liveFailNet.channelTitles, "v1", none, none⟩ ∧
    (∃ li, get_live_now liveFailNet "c2" = some li ∧ li.video_id = "v1") :=
  ⟨(C6_unknown_cycle ⟨none, none, none⟩ "c" "x" []).1 rfl,
    (C6_unknown_cycle ⟨some [], some [], some []⟩ "c" "x" []).2.1 rfl,
    (C6_unknown_cycle liveFailNet "c2" "v1" []).2.2.1 rfl rfl,
    (C6_unknown_cycle liveFailNet "c2" "v1" []).2.2.2 rfl⟩

/-! ## Polling-loop lemmas: one channel -/

/-- A future, parseable cooldown makes the gate skip. -/
theorem gateSkip_iso {st : St} {now : Int} {c : String} {T : Int}
    (hcd : st.cooldown_until c = some (TS.iso T)) (hlt : now < T) :
    gateSkip st now c = true := by
  simp [gateSkip, hcd, parseTS, hlt]

/-- An absent cooldown leaves the gate open. -/
theorem gateSkip_none {st : St} {now : Int} {c : String}
    (hcd : st.cooldown_until c = none) : gateSkip st now c = false := by
  simp [gateSkip, hcd]

/-- A corrupt cooldown fails to parse and leaves the gate open. -/
theorem gateSkip_corrupt {st : St} {now : Int} {c : String} {s : String}
    (hcd : st.cooldown_until c = some (TS.corrupt s)) : gateSkip st now c = false := by
  simp [gateSkip, hcd, parseTS]

theorem pc_gate {D now : Int} {lr so} {st : St} {c : String}
    (h : gateSkip st now c = true) :
    processChannel D now lr so st c = ⟨false, st, []⟩ := by
  simp [processChannel, h]

theorem pc_err {D now : Int} {so} {st : St} {c : String}
    (h : gateSkip st now c = false) (e : Unit) :
    processChannel D now (.error e) so st c = ⟨true, st, [.apiCall c]⟩ := by
  simp [processChannel, h]

theorem pc_none {D now : Int} {so} {st : St} {c : String}
    (h : gateSkip st now c = false) :
    processChannel D now (.ok none) so st c = ⟨false, st, [.apiCall c]⟩ := by
  simp [processChannel, h]

theorem pc_same {D now : Int} {so} {st : St} {c : String} {l : LiveInfo}
    (h : gateSkip st now c = false) (hl : st.last_live c = some l.video_id) :
    processChannel D now (.ok (some l)) so st c = ⟨false, st, [.apiCall c]⟩ := by
  simp [processChannel, h, hl]

theorem pc_new {D now : Int} {so} {st : St} {c : String} {l : LiveInfo}
    (h : gateSkip st now c = false) (hl : ¬ st.last_live c = some l.video_id) :
    processChannel D now (.ok (some l)) so st c =
      ⟨false,
        { st with
          last_live := upd st.last_live c (some l.video_id),
          last_live_at := upd st.last_live_at c (some (TS.iso now)),
          cooldown_until := if 0 < D then
              upd st.cooldown_until c (some (TS.iso (now + D)))
            else st.cooldown_until },
        [Event.apiCall c, Event.setLastLive c l.video_id, Event.setLastLiveAt c now] ++
          (if 0 < D then [Event.setCooldown c (now + D)] else []) ++
          (sweepTargets st c).map (fun chat => Event.send c chat (notifText c l) (so chat))⟩ := by
  by_cases hD : 0 < D <;> simp [processChannel, h, hl, hD]

/-- Processing channel `c` never touches another channel's persisted
entries, nor the subscription and destination maps. -/
theorem pc_frame (D now : Int) (lr) (so) (st : St) (c : String) :
    (processChannel D now lr so st c).state.subscriptions = st.subscriptions ∧
    (processChannel D now lr so st c).state.destinations = st.destinations ∧
    ∀ d, d ≠ c →
      (processChannel D now lr so st c).state.last_live d = st.last_live d ∧
      (processChannel D now lr so st c).state.last_live_at d = st.last_live_at d ∧
      (processChannel D now lr so st c).state.cooldown_until d = st.cooldown_until d := by
  by_cases hg : gateSkip st now c = true
  · simp [pc_gate hg]
  · have hg' : gateSkip st now c = false := by simpa using hg
    cases lr with
    | error e => simp [pc_err hg' e]
    | ok o =>
      cases o with
      | none => simp [pc_none hg']
      | some l =>
        by_cases hl : st.last_live c = some l.video_id
        · simp [pc_same hg' hl]
        · rw [pc_new hg' hl]
          refine ⟨rfl, rfl, ?_⟩
          intro d hd
          by_cases hD : 0 < D <;> simp [upd, hd, hD]

/-- Every event of a channel's trace is tagged with that channel. -/
theorem pc_chan {D now : Int} {lr so} {st : St} {c : String} :
    ∀ e ∈ (processChannel D now lr so st c).trace, e.chan = c := by
  by_cases hg : gateSkip st now c = true
  · simp [pc_gate hg]
  · have hg' : gateSkip st now c = false := by simpa using hg
    cases lr with
    | error e => simp [pc_err hg' e, Event.chan]
    | ok o =>
      cases o with
      | none => simp [pc_none hg', Event.chan]
      | some l =>
        by_cases hl : st.last_live c = some l.video_id
        · simp [pc_same hg' hl, Event.chan]
        · rw [pc_new hg' hl]
          intro e he
          simp only [List.mem_append, List.mem_cons, List.not_mem_nil, or_false,
            List.mem_map] at he
          rcases he with ((rfl | rfl | rfl) | hif) | ⟨chat, _, rfl⟩
          · rfl
          · rfl
          · rfl
          · by_cases hD : 0 < D
            · simp [hD] at hif
              subst hif
              rfl
            · simp [hD] at hif
          · rfl

/-- When the oracle cannot report a different broadcast id than the one
stored, processing the channel is a no-op: state untouched, nothing
sent, whatever the branch taken (gate skip, not live, raise, same id). -/
theorem pc_keep {D now : Int} {so} {st : St} {c : String} {v : String}
    (lr : Except Unit (Option LiveInfo))
    (hl : st.last_live c = some v)
    (hor : ∀ l, lr = Except.ok (some l) → l.video_id = v) :
    (processChannel D now lr so st c).state = st ∧
    ∀ e ∈ (processChannel D now lr so st c).trace, e.isSend = false := by
  by_cases hg : gateSkip st now c = true
  · simp [pc_gate hg]
  · have hg' : gateSkip st now c = false := by simpa using hg
    cases lr with
    | error e => simp [pc_err hg' e, Event.isSend]
    | ok o =>
      cases o with
      | none => simp [pc_none hg', Event.isSend]
      | some l =>
        have hsame : st.last_live c = some l.video_id := by
          rw [hor l rfl]; exact hl
        simp [pc_same hg' hsame, Event.isSend]

/-- A non-raising oracle result means the channel body never raises. -/
theorem pc_not_raised {D now : Int} {so} {st : St} {c : String}
    {lr : Except Unit (Option LiveInfo)} (h : ∀ e : Unit, lr ≠ Except.error e) :
    (processChannel D now lr so st c).raised = false := by
  by_cases hg : gateSkip st now c = true
  · simp [pc_gate hg]
  · have hg' : gateSkip st now c = false := by simpa using hg
    cases lr with
    | error e => exact absurd rfl (h e)
    | ok o =>
      cases o with
      | none => simp [pc_none hg']
      | some l =>
        by_cases hl : st.last_live c = some l.video_id
        · simp [pc_same hg' hl]
        · simp [pc_new hg' hl]

/-- Send outcomes do not influence the state, the raise flag, or the
shape of the trace. -/
theorem pc_sendOk (D now : Int) (lr) (so so' : Int → Bool) (st : St) (c : String) :
    (processChannel D now lr so st c).state = (processChannel D now lr so' st c).state ∧
    (processChannel D now lr so st c).raised = (processChannel D now lr so' st c).raised ∧
    (processChannel D now lr so st c).trace.map Event.shape =
      (processChannel D now lr so' st c).trace.map Event.shape := by
  by_cases hg : gateSkip st now c = true
  · simp [pc_gate hg]
  · have hg' : gateSkip st now c = false := by simpa using hg
    cases lr with
    | error e => simp [pc_err hg' e]
    | ok o =>
      cases o with
      | none => simp [pc_none hg']
      | some l =>
        by_cases hl : st.last_live c = some l.video_id
        · simp [pc_same hg' hl]
        · rw [pc_new hg' hl, pc_new hg' hl]
          refine ⟨rfl, rfl, ?_⟩
          simp [Event.shape]

/-! ## Polling-loop lemmas: sweeps and runs -/

/-- A trace without send events sends nothing for any channel. -/
theorem sentFor_false_of_noSend {c : String} {tr : List Event}
    (h : ∀ e ∈ tr, e.isSend = false) : sentFor c tr = false := by
  unfold sentFor
  rw [List.any_eq_false]
  intro e he
  simp [h e he]

/-- A trace belonging entirely to other channels sends nothing for `c`. -/
theorem sentFor_false_of_chan {c : String} {tr : List Event}
    (h : ∀ e ∈ tr, e.chan ≠ c) : sentFor c tr = false := by
  unfold sentFor
  rw [List.any_eq_false]
  intro e he
  simp only [Bool.and_eq_true, beq_iff_eq, not_and]
  intro _
  exact h e he

/-- A trace belonging entirely to other channels spends no API call on `c`. -/
theorem calledApi_false_of_chan {c : String} {tr : List Event}
    (h : ∀ e ∈ tr, e.chan ≠ c) : calledApi c tr = false := by
  unfold calledApi
  rw [List.any_eq_false]
  intro e he
  have hc := h e he
  cases e <;> simp [Event.chan] at hc ⊢ <;> try exact hc

theorem sentFor_append (c : String) (a b : List Event) :
    sentFor c (a ++ b) = (sentFor c a || sentFor c b) :=
  List.any_append

theorem calledApi_append (c : String) (a b : List Event) :
    calledApi c (a ++ b) = (calledApi c a || calledApi c b) :=
  List.any_append

/-- Once a channel's stored id can only be confirmed by the oracle, a
sweep leaves it stored and sends nothing for the channel. -/
theorem sweep_keep {D now : Int} {oracle : String → Except Unit (Option LiveInfo)}
    {so : Int → Bool} {c v : String}
    (hor : ∀ l, oracle c = Except.ok (some l) → l.video_id = v) :
    ∀ (chs : List String) (st : St), st.last_live c = some v →
      (runSweep D now oracle so st chs).1.last_live c = some v ∧
      sentFor c (runSweep D now oracle so st chs).2 = false := by
  intro chs
  induction chs with
  | nil => intro st h; exact ⟨h, rfl⟩
  | cons d rest ih =>
    intro st h
    rw [runSweep]
    by_cases hd : d = c
    · subst hd
      have hk := @pc_keep D now so st d _ (oracle d) h hor
      cases hb : (processChannel D now (oracle d) so st d).raised
      · simp only [hb, Bool.false_eq_true, if_false]
        have hrest := ih _ (hk.1.symm ▸ h)
        refine ⟨hrest.1, ?_⟩
        rw [sentFor_append, sentFor_false_of_noSend hk.2, hrest.2]
        rfl
      · simp only [hb, if_true]
        exact ⟨hk.1.symm ▸ h, sentFor_false_of_noSend hk.2⟩
    · have hfr := pc_frame D now (oracle d) so st d
      have hpre : (processChannel D now (oracle d) so st d).state.last_live c =
          some v := by rw [(hfr.2.2 c (by simpa using Ne.symm hd)).1]; exact h
      have hch : ∀ e ∈ (processChannel D now (oracle d) so st d).trace, e.chan ≠ c := by
        intro e he
        rw [pc_chan e he]
        exact hd
      cases hb : (processChannel D now (oracle d) so st d).raised
      · simp only [hb, Bool.false_eq_true, if_false]
        have hrest := ih _ hpre
        refine ⟨hrest.1, ?_⟩
        rw [sentFor_append, sentFor_false_of_chan hch, hrest.2]
        rfl
      · simp only [hb, if_true]
        exact ⟨hpre, sentFor_false_of_chan hch⟩

/-- If a sweep sends anything for `c`, the sweep's final state stores
the only broadcast id the oracle can report for `c`. -/
theorem sweep_sent_imp {D now : Int} {oracle : String → Except Unit (Option LiveInfo)}
    {so : Int → Bool} {c v : String}
    (hor : ∀ l, oracle c = Except.ok (some l) → l.video_id = v) :
    ∀ (chs : List String) (st : St),
      sentFor c (runSweep D now oracle so st chs).2 = true →
      (runSweep D now oracle so st chs).1.last_live c = some v := by
  intro chs
  induction chs with
  | nil => intro st h; simp [runSweep, sentFor] at h
  | cons d rest ih =>
    intro st h
    rw [runSweep] at h ⊢
    by_cases hd : d = c
    · subst hd
      cases ho : oracle d with
      | error e =>
        rw [ho] at h
        by_cases hg : gateSkip st now d = true
        · rw [pc_gate hg] at h ⊢
          simp only [if_false] at h ⊢
          exact ih st (by simpa [sentFor_append] using h)
        · have hg' : gateSkip st now d = false := by simpa using hg
          rw [pc_err hg' e] at h
          simp [sentFor, Event.isSend] at h
      | ok o =>
        rw [ho] at h
        cases o with
        | none =>
          by_cases hg : gateSkip st now d = true
          · rw [pc_gate hg] at h ⊢
            simp only [if_false] at h ⊢
            exact ih st (by simpa [sentFor_append] using h)
          · have hg' : gateSkip st now d = false := by simpa using hg
            rw [pc_none hg'] at h ⊢
            simp only [if_false] at h ⊢
            have h' : sentFor d (runSweep D now oracle so st rest).2 = true := by
              simpa [sentFor_append, sentFor, Event.isSend] using h
            exact ih st h'
        | some l =>
          have hv : l.video_id = v := hor l ho
          by_cases hg : gateSkip st now d = true
          · rw [pc_gate hg] at h ⊢
            simp only [if_false] at h ⊢
            exact ih st (by simpa [sentFor_append] using h)
          · have hg' : gateSkip st now d = false := by simpa using hg
            by_cases hl : st.last_live d = some l.video_id
            · rw [pc_same hg' hl] at h ⊢
              simp only [if_false] at h ⊢
              exact (sweep_keep hor rest st (hv ▸ hl)).1
            · rw [pc_new hg' hl]
              simp only [if_false]
              have hst' : ({ st with
                  last_live := upd st.last_live d (some l.video_id),
                  last_live_at := upd st.last_live_at d (some (TS.iso now)),
                  cooldown_until := if 0 < D then
                      upd st.cooldown_until d (some (TS.iso (now + D)))
                    else st.cooldown_until } : St).last_live d = some v := by
                simp [upd, hv]
              exact (sweep_keep hor rest _ hst').1
    · have hfr := pc_frame D now (oracle d) so st d
      have hch : ∀ e ∈ (processChannel D now (oracle d) so st d).trace, e.chan ≠ c := by
        intro e he
        rw [pc_chan e he]
        exact hd
      cases hb : (processChannel D now (oracle d) so st d).raised
      · simp only [hb, Bool.false_eq_true, if_false] at h ⊢
        have h' : sentFor c (runSweep D now oracle so
            (processChannel D now (oracle d) so st d).state rest).2 = true := by
          rw [sentFor_append, sentFor_false_of_chan hch] at h
          simpa using h
        exact ih _ h'
      · simp only [hb, if_true] at h ⊢
        rw [sentFor_false_of_chan hch] at h
        exact absurd h (by simp)

/-- `sweep_keep` iterated over a whole run. -/
theorem loop_keep {D : Int} {c v : String} :
    ∀ (n : Nat) (times : Nat → Int)
      (oracles : Nat → String → Except Unit (Option LiveInfo))
      (sendOks : Nat → Int → Bool) (chs : List String) (st : St),
      (∀ i l, oracles i c = Except.ok (some l) → l.video_id = v) →
      st.last_live c = some v →
      (runLoop D times oracles sendOks chs st n).1.last_live c = some v ∧
      ∀ tr ∈ (runLoop D times oracles sendOks chs st n).2, sentFor c tr = false := by
  intro n
  induction n with
  | zero =>
    intro times oracles sendOks chs st _ h
    exact ⟨h, by simp [runLoop]⟩
  | succ m ih =>
    intro times oracles sendOks chs st hor h
    rw [runLoop]
    have hs := @sweep_keep D (times 0) (oracles 0) (sendOks 0) c v (hor 0) chs st h
    have hrest := ih (fun i => times (i + 1)) (fun i => oracles (i + 1))
      (fun i => sendOks (i + 1)) chs _ (fun i l => hor (i + 1) l) hs.1
    refine ⟨hrest.1, ?_⟩
    intro tr htr
    simp only [List.mem_cons] at htr
    rcases htr with rfl | htr
    · exact hs.2
    · exact hrest.2 tr htr

/-- At most one sweep of a run ever notifies `c` when the oracle can
only report a single broadcast id for it. -/
theorem loop_atmost {D : Int} {c v : String} :
    ∀ (n : Nat) (times : Nat → Int)
      (oracles : Nat → String → Except Unit (Option LiveInfo))
      (sendOks : Nat → Int → Bool) (chs : List String) (st : St),
      (∀ i l, oracles i c = Except.ok (some l) → l.video_id = v) →
      (runLoop D times oracles sendOks chs st n).2.countP (fun tr => sentFor c tr) ≤ 1 := by
  intro n
  induction n with
  | zero => intro times oracles sendOks chs st _; simp [runLoop]
  | succ m ih =>
    intro times oracles sendOks chs st hor
    rw [runLoop]
    simp only [List.countP_cons]
    cases hs : sentFor c (runSweep D (times 0) (oracles 0) (sendOks 0) st chs).2
    · have hrest := ih (fun i => times (i + 1)) (fun i => oracles (i + 1))
        (fun i => sendOks (i + 1)) chs
        (runSweep D (times 0) (oracles 0) (sendOks 0) st chs).1
        (fun i l => hor (i + 1) l)
      simpa using hrest
    · have hafter := sweep_sent_imp (hor 0) chs st hs
      have hkeep := @loop_keep D c v m (fun i => times (i + 1)) (fun i => oracles (i + 1))
        (fun i => sendOks (i + 1)) chs
        (runSweep D (times 0) (oracles 0) (sendOks 0) st chs).1
        (fun i l => hor (i + 1) l) hafter
      have hzero : (runLoop D (fun i => times (i + 1)) (fun i => oracles (i + 1))
          (fun i => sendOks (i + 1)) chs
          (runSweep D (times 0) (oracles 0) (sendOks 0) st chs).1 m).2.countP
            (fun tr => sentFor c tr) = 0 := by
        rw [List.countP_eq_zero]
        intro tr htr
        simp [hkeep.2 tr htr]
      simp [hzero]

/-- Under a future well-formed cooldown, a sweep leaves the cooldown in
place and produces no event at all for the channel. -/
theorem sweep_cool {D now : Int} {oracle : String → Except Unit (Option LiveInfo)}
    {so : Int → Bool} {c : String} {T : Int} (hlt : now < T) :
    ∀ (chs : List String) (st : St), st.cooldown_until c = some (TS.iso T) →
      (runSweep D now oracle so st chs).1.cooldown_until c = some (TS.iso T) ∧
      ∀ e ∈ (runSweep D now oracle so st chs).2, e.chan ≠ c := by
  intro chs
  induction chs with
  | nil => intro st h; exact ⟨h, by simp [runSweep]⟩
  | cons d rest ih =>
    intro st h
    rw [runSweep]
    by_cases hd : d = c
    · subst hd
      rw [pc_gate (gateSkip_iso h hlt)]
      simp only [Bool.false_eq_true, if_false, List.nil_append]
      exact ih st h
    · have hfr := pc_frame D now (oracle d) so st d
      have hpre : (processChannel D now (oracle d) so st d).state.cooldown_until c =
          some (TS.iso T) := by
        rw [(hfr.2.2 c (by simpa using Ne.symm hd)).2.2]; exact h
      have hch : ∀ e ∈ (processChannel D now (oracle d) so st d).trace, e.chan ≠ c := by
        intro e he
        rw [pc_chan e he]
        exact hd
      cases hb : (processChannel D now (oracle d) so st d).raised
      · simp only [hb, Bool.false_eq_true, if_false]
        have hrest := ih _ hpre
        refine ⟨hrest.1, ?_⟩
        intro e he
        rw [List.mem_append] at he
        rcases he with he | he
        · exact hch e he
        · exact hrest.2 e he
      · simp only [hb, if_true]
        exact ⟨hpre, hch⟩

/-- `sweep_cool` iterated over a run whose sweeps all happen before the
cooldown expires. -/
theorem loop_cool {D : Int} {c : String} {T : Int} :
    ∀ (n : Nat) (times : Nat → Int)
      (oracles : Nat → String → Except Unit (Option LiveInfo))
      (sendOks : Nat → Int → Bool) (chs : List String) (st : St),
      st.cooldown_until c = some (TS.iso T) →
      (∀ i, i < n → times i < T) →
      (runLoop D times oracles sendOks chs st n).1.cooldown_until c = some (TS.iso T) ∧
      ∀ tr ∈ (runLoop D times oracles sendOks chs st n).2, calledApi c tr = false := by
  intro n
  induction n with
  | zero =>
    intro times oracles sendOks chs st h _
    exact ⟨h, by simp [runLoop]⟩
  | succ m ih =>
    intro times oracles sendOks chs st h htimes
    rw [runLoop]
    have hs := @sweep_cool D (times 0) (oracles 0) (sendOks 0) c T
      (htimes 0 (by omega)) chs st h
    have hrest := ih (fun i => times (i + 1)) (fun i => oracles (i + 1))
      (fun i => sendOks (i + 1)) chs _ hs.1 (fun i hi => htimes (i + 1) (by omega))
    refine ⟨hrest.1, ?_⟩
    intro tr htr
    simp only [List.mem_cons] at htr
    rcases htr with rfl | htr
    · exact calledApi_false_of_chan hs.2
    · exact hrest.2 tr htr

/-- C1: dedup idempotence.  If `get_live_now` reports the broadcast id
already stored as `last_live`, the sweep body for that channel leaves
the entire persisted state unchanged (`last_live`, `last_live_at`,
`cooldown_until` included) and emits no send; consequently, over any run
in which the oracle can only ever report the single broadcast id `v` for
channel `c`, at most one sweep of the whole run notifies `c`. -/
theorem C1_dedup_idempotence :
    (∀ (D now : Int) (so : Int → Bool) (st : St) (c : String) (l : LiveInfo),
      st.last_live c = some l.video_id →
      (processChannel D now (Except.ok (some l)) so st c).state = st ∧
      ∀ e ∈ (processChannel D now (Except.ok (some l)) so st c).trace,
        e.isSend = false) ∧
    (∀ (D : Int) (times : Nat → Int)
        (oracles : Nat → String → Except Unit (Option LiveInfo))
        (sendOks : Nat → Int → Bool) (chs : List String) (st : St) (c v : String)
        (n : Nat),
      (∀ i l, oracles i c = Except.ok (some l) → l.video_id = v) →
      (runLoop D times oracles sendOks chs st n).2.countP
        (fun tr => sentFor c tr) ≤ 1) := by
  constructor
  · intro D now so st c l hl
    exact pc_keep (Except.ok (some l)) hl
      (fun l' h => by injection h with h1; injection h1 with h2; rw [← h2])
  · intro D times oracles sendOks chs st c v n hor
    exact loop_atmost n times oracles sendOks chs st hor

/-- C4: cooldown gate.  (i) A parseable `cooldown_until` strictly in the
future makes the sweep skip the channel outright: no state change and an
empty trace, hence no API call.  (ii) A fresh detection with a positive
cooldown `D` persists `cooldown_until = now + D`.  (iii) From a state
whose cooldown expires at `T`, any number of sweeps all run before `T`
spend no API call on the channel and leave the cooldown in place. -/
theorem C4_cooldown_gate :
    (∀ (D now : Int) (lr : Except Unit (Option LiveInfo)) (so : Int → Bool)
        (st : St) (c : String) (T : Int),
      st.cooldown_until c = some (TS.iso T) → now < T →
      processChannel D now lr so st c = ⟨false, st, []⟩) ∧
    (∀ (D now : Int) (so : Int → Bool) (st : St) (c : String) (l : LiveInfo),
      gateSkip st now c = false → ¬ st.last_live c = some l.video_id → 0 < D →
      (processChannel D now (Except.ok (some l)) so st c).state.cooldown_until c =
        some (TS.iso (now + D))) ∧
    (∀ (D : Int) (times : Nat → Int)
        (oracles : Nat → String → Except Unit (Option LiveInfo))
        (sendOks : Nat → Int → Bool) (chs : List String) (st : St) (c : String)
        (T : Int) (n : Nat),
      st.cooldown_until c = some (TS.iso T) → (∀ i, i < n → times i < T) →
      (runLoop D times oracles sendOks chs st n).1.cooldown_until c =
        some (TS.iso T) ∧
      ∀ tr ∈ (runLoop D times oracles sendOks chs st n).2,
        calledApi c tr = false) := by
  refine ⟨?_, ?_, ?_⟩
  · intro D now lr so st c T hcd hlt
    exact pc_gate (gateSkip_iso hcd hlt)
  · intro D now so st c l hg hl hD
    rw [pc_new hg hl]
    simp [upd, hD]
  · intro D times oracles sendOks chs st c T n hcd htimes
    exact loop_cool n times oracles sendOks chs st hcd htimes

/-- C5: first detection.  For a channel with no stored `last_live` and
no cooldown, a sweep in which `get_live_now` reports broadcast `l`
raises nothing, stores `last_live = l.video_id` and
`last_live_at = now`, sets `cooldown_until = now + D` exactly when
`D > 0` (otherwise it stays unset), and attempts exactly one delivery
per recipient of the duplicate-free union of subscribers and
destinations, each carrying the text built from the channel title, the
broadcast title (with the generic live label when absent) and the
canonical watch URL. -/
theorem C5_first_detection (D now : Int) (so : Int → Bool) (st : St) (c : String)
    (l : LiveInfo) (hlast : st.last_live c = none)
    (hcool : st.cooldown_until c = none) :
    (processChannel D now (Except.ok (some l)) so st c).raised = false ∧
    (processChannel D now (Except.ok (some l)) so st c).state.last_live c =
      some l.video_id ∧
    (processChannel D now (Except.ok (some l)) so st c).state.last_live_at c =
      some (TS.iso now) ∧
    (processChannel D now (Except.ok (some l)) so st c).state.cooldown_until c =
      (if 0 < D then some (TS.iso (now + D)) else none) ∧
    (processChannel D now (Except.ok (some l)) so st c).trace =
      [Event.apiCall c, Event.setLastLive c l.video_id, Event.setLastLiveAt c now] ++
        (if 0 < D then [Event.setCooldown c (now + D)] else []) ++
        (sweepTargets st c).map
          (fun chat => Event.send c chat (notifText c l) (so chat)) ∧
    (sweepTargets st c).Nodup ∧
    ∀ chat : Int, chat ∈ sweepTargets st c ↔
      chat ∈ all_subscribers_for st.subscriptions c ∨ chat ∈ st.destinations c := by
  have hg : gateSkip st now c = false := gateSkip_none hcool
  have hl : ¬ st.last_live c = some l.video_id := by rw [hlast]; simp
  rw [pc_new hg hl]
  refine ⟨rfl, by simp [upd], by simp [upd], ?_, rfl, List.nodup_dedup _, ?_⟩
  · by_cases hD : 0 < D <;> simp [upd, hD, hcool]
  · intro chat
    simp [sweepTargets]

/-- C9: a corrupt (unparseable) `cooldown_until` fails open.  Processing
the channel behaves exactly as if no cooldown were stored: same raise
flag, same trace (in particular the API call is spent — the channel is
polled, not skipped), same `last_live` / `last_live_at` outcome; and the
parse failure itself never raises — the body raises only when the
oracle does. -/
theorem C9_corrupt_cooldown_fails_open (D now : Int)
    (lr : Except Unit (Option LiveInfo)) (so : Int → Bool) (st : St)
    (c : String) (s : String)
    (hcd : st.cooldown_until c = some (TS.corrupt s)) :
    (processChannel D now lr so st c).raised =
      (processChannel D now lr so
        { st with cooldown_until := upd st.cooldown_until c none } c).raised ∧
    (processChannel D now lr so st c).trace =
      (processChannel D now lr so
        { st with cooldown_until := upd st.cooldown_until c none } c).trace ∧
    (processChannel D now lr so st c).state.last_live =
      (processChannel D now lr so
        { st with cooldown_until := upd st.cooldown_until c none } c).state.last_live ∧
    (processChannel D now lr so st c).state.last_live_at =
      (processChannel D now lr so
        { st with cooldown_until := upd st.cooldown_until c none } c).state.last_live_at ∧
    Event.apiCall c ∈ (processChannel D now lr so st c).trace ∧
    (processChannel D now lr so st c).raised =
      (match lr with | Except.error _ => true | Except.ok _ => false) := by
  have hg1 : gateSkip st now c = false := gateSkip_corrupt hcd
  have hg2 : gateSkip { st with cooldown_until := upd st.cooldown_until c none }
      now c = false := gateSkip_none (by simp [upd])
  cases lr with
  | error e =>
    rw [pc_err hg1 e, pc_err hg2 e]
    exact ⟨rfl, rfl, rfl, rfl, by simp, rfl⟩
  | ok o =>
    cases o with
    | none =>
      rw [pc_none hg1, pc_none hg2]
      exact ⟨rfl, rfl, rfl, rfl, by simp, rfl⟩
    | some l =>
      by_cases hl : st.last_live c = some l.video_id
      · rw [pc_same hg1 hl, pc_same hg2 hl]
        exact ⟨rfl, rfl, rfl, rfl, by simp, rfl⟩
      · rw [pc_new hg1 hl, pc_new hg2 hl]
        exact ⟨rfl, rfl, rfl, rfl, by simp, rfl⟩

/-- C10: commit happens before delivery.  On a fresh detection the trace
splits as non-send events followed by send events, the `last_live` write
is among the former, the resulting state does not depend on delivery
outcomes (even if every send fails), and no later sweep of any run whose
oracle can only report the same broadcast id for the channel ever
delivers for it again. -/
theorem C10_commit_before_notify (D now : Int) (so : Int → Bool) (st : St)
    (c : String) (l : LiveInfo)
    (hg : gateSkip st now c = false)
    (hl : ¬ st.last_live c = some l.video_id) :
    (∃ pre sends, (processChannel D now (Except.ok (some l)) so st c).trace =
        pre ++ sends ∧
      (∀ e ∈ pre, e.isSend = false) ∧ (∀ e ∈ sends, e.isSend = true) ∧
      Event.setLastLive c l.video_id ∈ pre) ∧
    (processChannel D now (Except.ok (some l)) so st c).state.last_live c =
      some l.video_id ∧
    (∀ so' : Int → Bool,
      (processChannel D now (Except.ok (some l)) so' st c).state =
        (processChannel D now (Except.ok (some l)) so st c).state) ∧
    (∀ (times : Nat → Int) (oracles : Nat → String → Except Unit (Option LiveInfo))
        (sendOks : Nat → Int → Bool) (chs : List String) (n : Nat),
      (∀ i l', oracles i c = Except.ok (some l') → l'.video_id = l.video_id) →
      ∀ tr ∈ (runLoop D times oracles sendOks chs
          (processChannel D now (Except.ok (some l)) so st c).state n).2,
        sentFor c tr = false) := by
  rw [pc_new hg hl]
  refine ⟨?_, by simp [upd], ?_, ?_⟩
  · refine ⟨[Event.apiCall c, Event.setLastLive c l.video_id,
        Event.setLastLiveAt c now] ++
        (if 0 < D then [Event.setCooldown c (now + D)] else []),
      (sweepTargets st c).map
        (fun chat => Event.send c chat (notifText c l) (so chat)),
      by simp, ?_, ?_, by simp⟩
    · intro e he
      by_cases hD : 0 < D <;> simp [hD] at he <;>
        rcases he with rfl | rfl | rfl | rfl <;> rfl
    · intro e he
      simp only [List.mem_map] at he
      obtain ⟨chat, _, rfl⟩ := he
      rfl
  · intro so'
    rw [pc_new hg hl]
  · intro times oracles sendOks chs n hor
    exact (loop_keep n times oracles sendOks chs _ hor (by simp [upd])).2

/-! ## C2: sweep-level exception handling -/

/-- As long as no channel raises, a sweep over `l1 ++ l2` is the sweep
over `l1` followed by the sweep over `l2` from the reached state. -/
theorem runSweep_no_raise_append {D now : Int}
    {oracle : String → Except Unit (Option LiveInfo)} {so : Int → Bool} :
    ∀ (l1 : List String) (st : St) (l2 : List String),
      (∀ d ∈ l1, ∀ e : Unit, oracle d ≠ Except.error e) →
      runSweep D now oracle so st (l1 ++ l2) =
        ((runSweep D now oracle so (runSweep D now oracle so st l1).1 l2).1,
          (runSweep D now oracle so st l1).2 ++
            (runSweep D now oracle so (runSweep D now oracle so st l1).1 l2).2) := by
  intro l1
  induction l1 with
  | nil => intro st l2 _; simp [runSweep]
  | cons d rest ih =>
    intro st l2 h
    simp only [List.cons_append, runSweep]
    have hb := @pc_not_raised D now so st d (oracle d) (h d (by simp))
    simp only [hb, Bool.false_eq_true, if_false, List.append_eq]
    rw [ih ((processChannel D now (oracle d) so st d).state) l2
      (fun x hx e => h x (List.mem_cons_of_mem _ hx) e)]
    simp [List.append_assoc]

/-- Delivery outcomes influence neither the state a sweep reaches nor
the shape of its trace. -/
theorem runSweep_sendOk {D now : Int}
    {oracle : String → Except Unit (Option LiveInfo)} (so so' : Int → Bool) :
    ∀ (chs : List String) (st : St),
      (runSweep D now oracle so st chs).1 = (runSweep D now oracle so' st chs).1 ∧
      (runSweep D now oracle so st chs).2.map Event.shape =
        (runSweep D now oracle so' st chs).2.map Event.shape := by
  intro chs
  induction chs with
  | nil => intro st; exact ⟨rfl, rfl⟩
  | cons d rest ih =>
    intro st
    simp only [runSweep]
    have hpc := pc_sendOk D now (oracle d) so so' st d
    rw [hpc.1, hpc.2.1]
    cases hb : (processChannel D now (oracle d) so' st d).raised
    · simp only [hb, Bool.false_eq_true, if_false]
      have hrest := ih ((processChannel D now (oracle d) so' st d).state)
      refine ⟨hrest.1, ?_⟩
      rw [List.map_append, List.map_append, hpc.2.2, hrest.2]
    · simp only [hb, if_true]
      exact ⟨by trivial, hpc.2.2⟩

/-- C2 counterexample: with channels iterated in the order `[A, B]` and
the resolver raising on `A`, the sweep-level `try`/`except` of
`notifier_loop` ends the sweep at `A`: channel `B`, although live and
subscribed to by chat 1, is neither polled nor notified in that sweep,
and its state is untouched — against the claimed per-channel isolation. -/
theorem C2_counterexample :
    sentFor "B" (runSweep 0 0 oracleAB (fun _ => true) stAB ["A", "B"]).2 = false ∧
    (runSweep 0 0 oracleAB (fun _ => true) stAB ["A", "B"]).2 = [Event.apiCall "A"] ∧
    (runSweep 0 0 oracleAB (fun _ => true) stAB ["A", "B"]).1.last_live "B" = none := by
  refine ⟨by decide, by decide, rfl⟩

/-- C2 (amended): per-channel failures are not isolated inside a sweep:
the `try`/`except` sits outside the `for` loop, so the first raised
failure aborts the remainder of the current sweep.  What does hold:
(i) channels processed before the failing one keep all their effects and
the raising channel itself changes no state beyond its spent API call;
(ii) delivery failures to individual recipients abort nothing — they
change neither the reached state nor the shape of the sweep trace;
(iii) the loop survives the aborted sweep: in the fixture run the next
sweep processes every channel and notifies `B`. -/
theorem C2_sweep_abort_and_recovery :
    (∀ (D now : Int) (oracle : String → Except Unit (Option LiveInfo))
        (so : Int → Bool) (st : St) (pre : List String) (a : String)
        (post : List String),
      (∀ d ∈ pre, ∀ e : Unit, oracle d ≠ Except.error e) →
      oracle a = Except.error () →
      gateSkip (runSweep D now oracle so st pre).1 now a = false →
      runSweep D now oracle so st (pre ++ a :: post) =
        ((runSweep D now oracle so st pre).1,
          (runSweep D now oracle so st pre).2 ++ [Event.apiCall a])) ∧
    (∀ (D now : Int) (oracle : String → Except Unit (Option LiveInfo))
        (so so' : Int → Bool) (st : St) (chs : List String),
      (runSweep D now oracle so st chs).1 = (runSweep D now oracle so' st chs).1 ∧
      (runSweep D now oracle so st chs).2.map Event.shape =
        (runSweep D now oracle so' st chs).2.map Event.shape) ∧
    (runLoop 0 (fun _ => 0)
        (fun i => if i = 0 then oracleAB else fun _ => Except.ok (some liveB))
        (fun _ _ => true) ["A", "B"] stAB 2).2.map (fun tr => sentFor "B" tr) =
      [false, true] := by
  refine ⟨?_, ?_, by decide⟩
  · intro D now oracle so st pre a post hpre ha hgate
    rw [runSweep_no_raise_append pre st (a :: post) hpre]
    rw [runSweep]
    rw [ha, pc_err hgate ()]
    simp
  · intro D now oracle so so' st chs
    exact runSweep_sendOk so so' chs st

/-! ## Witnesses for the hypothesised claim theorems -/

theorem C1_dedup_idempotence_witness :
    (stC.last_live "B" = some liveB.video_id ∧
      (processChannel 0 0 (Except.ok (some liveB)) (fun _ => true) stC "B").state = stC ∧
      ∀ e ∈ (processChannel 0 0 (Except.ok (some liveB)) (fun _ => true) stC "B").trace,
        e.isSend = false) ∧
    (runLoop 0 (fun _ => 0) (fun _ _ => Except.ok (some liveB)) (fun _ _ => true)
        ["B"] stAB 3).2.countP (fun tr => sentFor "B" tr) ≤ 1 :=
  ⟨⟨by decide,
      (C1_dedup_idempotence.1 0 0 (fun _ => true) stC "B" liveB (by decide)).1,
      (C1_dedup_idempotence.1 0 0 (fun _ => true) stC "B" liveB (by decide)).2⟩,
    C1_dedup_idempotence.2 0 (fun _ => 0) (fun _ _ => Except.ok (some liveB))
      (fun _ _ => true) ["B"] stAB "B" "v1" 3
      (fun i l h => by injection h with h1; injection h1 with h2; rw [← h2]; rfl)⟩

theorem C4_cooldown_gate_witness :
    (stCD.cooldown_until "B" = some (TS.iso 100) ∧ (50 : Int) < 100 ∧
      processChannel 0 50 (Except.ok (some liveB)) (fun _ => true) stCD "B" =
        ⟨false, stCD, []⟩) ∧
    (gateSkip stAB 7 "B" = false ∧ ¬ stAB.last_live "B" = some liveB.video_id ∧
      (0 : Int) < 60 ∧
      (processChannel 60 7 (Except.ok (some liveB))
        (fun _ => true) stAB "B").state.cooldown_until "B" = some (TS.iso (7 + 60))) ∧
    ((runLoop 0 (fun _ => 0) (fun _ _ => Except.ok (some liveB)) (fun _ _ => true)
        ["B"] stCD 3).1.cooldown_until "B" = some (TS.iso 100) ∧
      ∀ tr ∈ (runLoop 0 (fun _ => 0) (fun _ _ => Except.ok (some liveB))
          (fun _ _ => true) ["B"] stCD 3).2, calledApi "B" tr = false) :=
  ⟨⟨by decide, by decide,
      C4_cooldown_gate.1 0 50 (Except.ok (some liveB)) (fun _ => true) stCD "B" 100
        (by decide) (by decide)⟩,
    ⟨by decide, by decide, by decide,
      C4_cooldown_gate.2.1 60 7 (fun _ => true) stAB "B" liveB (by decide) (by decide)
        (by decide)⟩,
    C4_cooldown_gate.2.2 0 (fun _ => 0) (fun _ _ => Except.ok (some liveB))
      (fun _ _ => true) ["B"] stCD "B" 100 3 (by decide)
      (fun i hi => by show (0 : Int) < 100; decide)⟩

theorem C5_first_detection_witness :
    stSub.last_live "B" = none ∧ stSub.cooldown_until "B" = none ∧
    ((processChannel 60 7 (Except.ok (some liveB)) (fun _ => true) stSub "B").raised =
        false ∧
      (processChannel 60 7 (Except.ok (some liveB))
          (fun _ => true) stSub "B").state.last_live "B" = some liveB.video_id ∧
      (processChannel 60 7 (Except.ok (some liveB))
          (fun _ => true) stSub "B").state.last_live_at "B" = some (TS.iso 7) ∧
      (processChannel 60 7 (Except.ok (some liveB))
          (fun _ => true) stSub "B").state.cooldown_until "B" =
        (if (0 : Int) < 60 then some (TS.iso (7 + 60)) else none) ∧
      (processChannel 60 7 (Except.ok (some liveB)) (fun _ => true) stSub "B").trace =
        [Event.apiCall "B", Event.setLastLive "B" liveB.video_id,
            Event.setLastLiveAt "B" 7] ++
          (if (0 : Int) < 60 then [Event.setCooldown "B" (7 + 60)] else []) ++
          (sweepTargets stSub "B").map
            (fun chat => Event.send "B" chat (notifText "B" liveB) ((fun _ => true) chat)) ∧
      (sweepTargets stSub "B").Nodup ∧
      ∀ chat : Int, chat ∈ sweepTargets stSub "B" ↔
        chat ∈ all_subscribers_for stSub.subscriptions "B" ∨
          chat ∈ stSub.destinations "B") :=
  ⟨rfl, rfl, C5_first_detection 60 7 (fun _ => true) stSub "B" liveB rfl rfl⟩

theorem C9_corrupt_cooldown_fails_open_witness :
    stCor.cooldown_until "B" = some (TS.corrupt "garbage") ∧
    ((processChannel 0 0 (Except.ok (some liveB)) (fun _ => true) stCor "B").raised =
        (processChannel 0 0 (Except.ok (some liveB)) (fun _ => true)
          { stCor with cooldown_until := upd stCor.cooldown_until "B" none } "B").raised ∧
      (processChannel 0 0 (Except.ok (some liveB)) (fun _ => true) stCor "B").trace =
        (processChannel 0 0 (Except.ok (some liveB)) (fun _ => true)
          { stCor with cooldown_until := upd stCor.cooldown_until "B" none } "B").trace ∧
      (processChannel 0 0 (Except.ok (some liveB))
          (fun _ => true) stCor "B").state.last_live =
        (processChannel 0 0 (Except.ok (some liveB)) (fun _ => true)
          { stCor with cooldown_until := upd stCor.cooldown_until "B" none }
          "B").state.last_live ∧
      (processChannel 0 0 (Except.ok (some liveB))
          (fun _ => true) stCor "B").state.last_live_at =
        (processChannel 0 0 (Except.ok (some liveB)) (fun _ => true)
          { stCor with cooldown_until := upd stCor.cooldown_until "B" none }
          "B").state.last_live_at ∧
      Event.apiCall "B" ∈
        (processChannel 0 0 (Except.ok (some liveB)) (fun _ => true) stCor "B").trace ∧
      (processChannel 0 0 (Except.ok (some liveB)) (fun _ => true) stCor "B").raised =
        (match (Except.ok (some liveB) : Except Unit (Option LiveInfo)) with
          | Except.error _ => true | Except.ok _ => false)) :=
  ⟨by decide,
    C9_corrupt_cooldown_fails_open 0 0 (Except.ok (some liveB)) (fun _ => true)
      stCor "B" "garbage" (by decide)⟩

theorem C10_commit_before_notify_witness :
    gateSkip stAB 7 "B" = false ∧ ¬ stAB.last_live "B" = some liveB.video_id ∧
    ((∃ pre sends,
        (processChannel 60 7 (Except.ok (some liveB)) (fun _ => false) stAB "B").trace =
          pre ++ sends ∧
        (∀ e ∈ pre, e.isSend = false) ∧ (∀ e ∈ sends, e.isSend = true) ∧
        Event.setLastLive "B" liveB.video_id ∈ pre) ∧
      (processChannel 60 7 (Except.ok (some liveB))
          (fun _ => false) stAB "B").state.last_live "B" = some liveB.video_id ∧
      (∀ so' : Int → Bool,
        (processChannel 60 7 (Except.ok (some liveB)) so' stAB "B").state =
          (processChannel 60 7 (Except.ok (some liveB)) (fun _ => false) stAB "B").state) ∧
      (∀ (times : Nat → Int) (oracles : Nat → String → Except Unit (Option LiveInfo))
          (sendOks : Nat → Int → Bool) (chs : List String) (n : Nat),
        (∀ i l', oracles i "B" = Except.ok (some l') → l'.video_id = liveB.video_id) →
        ∀ tr ∈ (runLoop 60 times oracles sendOks chs
            (processChannel 60 7 (Except.ok (some liveB))
              (fun _ => false) stAB "B").state n).2,
          sentFor "B" tr = false)) :=
  ⟨by decide, by decide,
    C10_commit_before_notify 60 7 (fun _ => false) stAB "B" liveB (by decide) (by decide)⟩

theorem C2_sweep_abort_and_recovery_witness :
    ((∀ d ∈ ["B"], ∀ e : Unit, oracleAB d ≠ Except.error e) ∧
      oracleAB "A" = Except.error () ∧
      gateSkip (runSweep 0 0 oracleAB (fun _ => true) stAB ["B"]).1 0 "A" = false ∧
      runSweep 0 0 oracleAB (fun _ => true) stAB (["B"] ++ "A" :: ["B"]) =
        ((runSweep 0 0 oracleAB (fun _ => true) stAB ["B"]).1,
          (runSweep 0 0 oracleAB (fun _ => true) stAB ["B"]).2 ++
            [Event.apiCall "A"])) ∧
    ((runSweep 0 0 oracleAB (fun _ => true) stAB ["A", "B"]).1 =
        (runSweep 0 0 oracleAB (fun _ => false) stAB ["A", "B"]).1 ∧
      (runSweep 0 0 oracleAB (fun _ => true) stAB ["A", "B"]).2.map Event.shape =
        (runSweep 0 0 oracleAB (fun _ => false) stAB ["A", "B"]).2.map Event.shape) ∧
    (runLoop 0 (fun _ => 0)
        (fun i => if i = 0 then oracleAB else fun _ => Except.ok (some liveB))
        (fun _ _ => true) ["A", "B"] stAB 2).2.map (fun tr => sentFor "B" tr) =
      [false, true] :=
  ⟨⟨fun d hd e => by
      rcases List.mem_singleton.mp hd with rfl
      cases e
      simp [oracleAB],
    by simp [oracleAB],
    by decide,
    C2_sweep_abort_and_recovery.1 0 0 oracleAB (fun _ => true) stAB ["B"] "A" ["B"]
      (fun d hd e => by
        rcases List.mem_singleton.mp hd with rfl
        cases e
        simp [oracleAB])
      (by simp [oracleAB]) (by decide)⟩,
    C2_sweep_abort_and_recovery.2.1 0 0 oracleAB (fun _ => true) (fun _ => false)
      stAB ["A", "B"],
    C2_sweep_abort_and_recovery.2.2⟩
